import Mathlib

/-!
# Verification of the assessment scoring and recommendation engine

Shallow embedding of `src/services/scoringService.ts` (class `ScoringService`):
topic-gap calculation, dimension/overall aggregation, recommendation-rule
matching, per-dimension ranking, and the transactional compute-and-persist
flow `computeResults`.

Modelling conventions:
* JS numbers are exact rationals; a non-finite JS number (`NaN`, `±Infinity`)
  is `none` in `JsNum := Option ℚ`.  `Number.isFinite` is `Option.isSome`.
* `x.toFixed(2)` followed by `parseFloat`/`Number` is `round2`: JS `toFixed`
  picks the larger candidate on ties, i.e. rounds half toward `+∞`, which is
  exactly Mathlib's `round`.
* JS `Array.prototype.sort` (stable since ES2019) with a numeric comparator
  is `List.mergeSort` with the corresponding boolean order.
* Database tables are lists of rows; SQL `SELECT ... ORDER BY` is
  filter/join/`mergeSort`; `INSERT ... ON CONFLICT DO UPDATE` is an upsert on
  the key `(response_id, dimension_id)`; `NOW()` is an explicit clock value.
* The SQL transaction (`BEGIN`/`COMMIT`/`ROLLBACK`) is modelled by running
  the body on a working copy of the database that is only published on
  success; each statement can be made to fail through an injected failure
  oracle `fail : DbOp → Bool`, mirroring the `try`/`catch` with `ROLLBACK`
  and rethrow in the source.
-/

namespace Scoring

/-- A JS number: `some q` is a finite value, `none` is `NaN`/`±Infinity`. -/
abbrev JsNum := Option ℚ

/-- `Number(x.toFixed(2))`: round to 2 decimal places, ties toward `+∞`. -/
def round2 (q : ℚ) : ℚ := (round (100 * q) : ℤ) / 100

/-- `ScoringService.toFiniteNumber`: a finite number maps to itself, anything
non-finite (or a non-numeric string) to `null`.  On the `JsNum` model this
is the identity on `Option ℚ`. -/
def toFiniteNumber (v : JsNum) : Option ℚ := v

/-- `ScoringService.toNullableNumber`: `null`/`undefined` stay `null`, finite
numbers map to themselves, non-finite to `null`; identity on `Option ℚ`. -/
def toNullableNumber (v : Option ℚ) : Option ℚ := v

/-- Return type of `calculateTopicGap`. -/
structure TopicGap where
  gap : ℚ
  normalizedGap : ℚ
deriving DecidableEq, Repr

/-- `ScoringService.calculateTopicGap`:
`gap = target - current`, `normalizedGap = gap > 0 ? gap : 0`. -/
def calculateTopicGap (current target : ℚ) : TopicGap :=
  let gap := target - current
  let normalizedGap := if gap > 0 then gap else 0
  { gap := gap, normalizedGap := normalizedGap }

/-- Return type of `calculateDimensionMetrics`. -/
structure DimensionMetrics where
  score : ℚ
  gap : ℚ
deriving DecidableEq, Repr

/-- Argument rows of `calculateDimensionMetrics`: a current/target pair,
each possibly non-finite. -/
structure RatedPair where
  currentRating : JsNum
  targetRating : JsNum
deriving DecidableEq, Repr

/-- One step of the accumulation loop in `calculateDimensionMetrics`:
state is `(totalCurrent, totalNormalizedGap, validTopics)`; a pair with a
non-finite rating is skipped (`continue`). -/
def dimStep (acc : ℚ × ℚ × ℕ) (t : RatedPair) : ℚ × ℚ × ℕ :=
  match t.currentRating, t.targetRating with
  | some c, some tg =>
      (acc.1 + c, acc.2.1 + (calculateTopicGap c tg).normalizedGap, acc.2.2 + 1)
  | _, _ => acc

/-- `ScoringService.calculateDimensionMetrics`: average the current ratings
and the normalized gaps over the pairs whose two ratings are finite, round
both to 2 decimals; zero usable pairs gives `{score: 0, gap: 0}`. -/
def calculateDimensionMetrics (topics : List RatedPair) : DimensionMetrics :=
  if topics.length = 0 then { score := 0, gap := 0 }
  else
    let acc := topics.foldl dimStep (0, 0, 0)
    if acc.2.2 = 0 then { score := 0, gap := 0 }
    else { score := round2 (acc.1 / acc.2.2), gap := round2 (acc.2.1 / acc.2.2) }

/-- `ScoringService.calculatePriorityScore`: `parseFloat(gap.toFixed(2))`
(the impact weight is currently unused). -/
def calculatePriorityScore (gap : ℚ) : ℚ := round2 gap

/-- Return type of `calculateOverallMetrics`. -/
structure OverallMetrics where
  overallScore : ℚ
  overallGap : ℚ
deriving DecidableEq, Repr

/-- `ScoringService.calculateOverallMetrics`: unweighted mean of the
dimension scores and gaps, rounded to 2 decimals; empty list gives zeros. -/
def calculateOverallMetrics (dimensions : List DimensionMetrics) : OverallMetrics :=
  if dimensions.length = 0 then { overallScore := 0, overallGap := 0 }
  else
    let totalScore := dimensions.foldl (fun acc d => acc + d.score) 0
    let totalGap := dimensions.foldl (fun acc d => acc + d.gap) 0
    { overallScore := round2 (totalScore / dimensions.length)
      overallGap := round2 (totalGap / dimensions.length) }

/-- A row of the `topic_recommendations` table (ids are abstract naturals,
optional bounds are nullable decimals). -/
structure RecRule where
  id : ℕ
  topic_id : ℕ
  score_min : Option ℚ
  score_max : Option ℚ
  target_min : Option ℚ
  target_max : Option ℚ
  gap_min : Option ℚ
  gap_max : Option ℚ
  title : String
  description : Option String
  why : Option String
  what : Option String
  how : Option String
  action_items : List String
  category : String
  priority : ℤ
  tags : List String
  is_active : Bool
  order_index : ℤ
deriving DecidableEq, Repr

/-- `ScoringService.matchesConditions`: each of the six bounds either is
`null` or holds as an inclusive comparison (`x == null || cmp` is
`Option.all`). -/
def matchesConditions (r : RecRule) (score target gap : ℚ) : Bool :=
  (r.score_min.all fun v => decide (score ≥ v)) &&
  (r.score_max.all fun v => decide (score ≤ v)) &&
  (r.target_min.all fun v => decide (target ≥ v)) &&
  (r.target_max.all fun v => decide (target ≤ v)) &&
  (r.gap_min.all fun v => decide (gap ≥ v)) &&
  (r.gap_max.all fun v => decide (gap ≤ v))

/-- The gap value `computeResults` matches rules against:
`Number(Math.max(0, target - score).toFixed(2))`. -/
def matchGap (score target : ℚ) : ℚ := round2 (max 0 (target - score))

/-- Row of the `topics` table. -/
structure Topic where
  id : ℕ
  dimension_id : ℕ
  topic_key : String
  order_index : ℤ
deriving DecidableEq, Repr

/-- Row of the `dimensions` table. -/
structure Dimension where
  id : ℕ
  title : String
  category : String
  order_index : ℤ
deriving DecidableEq, Repr

/-- Row of the `topic_responses` table (ratings as stored, possibly
non-finite once converted to a JS number). -/
structure TopicResponseRow where
  id : ℕ
  response_id : ℕ
  topic_id : ℕ
  current_rating : JsNum
  target_rating : JsNum
deriving DecidableEq, Repr

/-- `assessment_responses.status` values the engine touches. -/
inductive RespStatus
  | in_progress
  | completed
deriving DecidableEq, Repr

/-- Row of the `assessment_responses` table (engine-relevant columns). -/
structure AssessmentResponseRow where
  id : ℕ
  status : RespStatus
  overall_score : Option ℚ
  overall_gap : Option ℚ
  completed_at : Option ℕ
deriving DecidableEq, Repr

/-- The matched-recommendation snapshot pushed into
`matchedRecommendationsByDimension` and persisted as JSON. -/
structure Recommendation where
  id : ℕ
  title : String
  description : Option String
  why : Option String
  what : Option String
  how : Option String
  action_items : List String
  category : String
  priority : ℤ
  tags : List String
  topicId : ℕ
  topicKey : String
deriving DecidableEq, Repr

/-- Row of the `computed_priorities` table. -/
structure ComputedPriorityRow where
  response_id : ℕ
  dimension_id : ℕ
  dimension_score : ℚ
  dimension_gap : ℚ
  priority_score : ℚ
  rank_order : ℕ
  recommendations : List Recommendation
  computed_at : ℕ
deriving DecidableEq, Repr

/-- The relational store, one list per table. -/
structure DB where
  topics : List Topic
  dimensions : List Dimension
  topic_responses : List TopicResponseRow
  topic_recommendations : List RecRule
  assessment_responses : List AssessmentResponseRow
  computed_priorities : List ComputedPriorityRow
deriving DecidableEq, Repr

/-- A row of the first query of `computeResults` (`topic_responses` joined
with `topics` and `dimensions`). -/
structure TRRow where
  id : ℕ
  topic_id : ℕ
  current_rating : JsNum
  target_rating : JsNum
  topic_key : String
  dimension_id : ℕ
  dimension_title : String
  dim_order : ℤ
  topic_order : ℤ
deriving DecidableEq, Repr

/-- `ORDER BY d.order_index, t.order_index` as a total boolean order. -/
def trRowLe (a b : TRRow) : Bool :=
  decide (a.dim_order < b.dim_order) ||
    (decide (a.dim_order = b.dim_order) && decide (a.topic_order ≤ b.topic_order))

/-- The join step of the first query: a `topic_responses` row of the
requested response joined to its topic and dimension (`JOIN` on primary
keys; a row of another response contributes nothing). -/
def joinRow (tops : List Topic) (dims : List Dimension) (responseId : ℕ)
    (tr : TopicResponseRow) : Option TRRow :=
  if tr.response_id = responseId then
    (tops.find? (fun t => t.id == tr.topic_id)).bind (fun t =>
      (dims.find? (fun d => d.id == t.dimension_id)).map (fun d =>
        { id := tr.id
          topic_id := tr.topic_id
          current_rating := tr.current_rating
          target_rating := tr.target_rating
          topic_key := t.topic_key
          dimension_id := t.dimension_id
          dimension_title := d.title
          dim_order := d.order_index
          topic_order := t.order_index }))
  else none

/-- The first query of `computeResults`: all `topic_responses` of the
response joined to their topic and dimension, ordered by
`(d.order_index, t.order_index)`. -/
def queryTopicResponses (trs : List TopicResponseRow) (tops : List Topic)
    (dims : List Dimension) (responseId : ℕ) : List TRRow :=
  (trs.filterMap (joinRow tops dims responseId)).mergeSort trRowLe

/-- A row of the recommendation query (`topic_recommendations` joined with
`topics` for `dimension_id` and `topic_key`). -/
structure RecRow where
  rule : RecRule
  dimension_id : ℕ
  topic_key : String
deriving DecidableEq, Repr

/-- `ORDER BY tr.priority DESC, tr.order_index ASC` as a total boolean order. -/
def recRowLe (a b : RecRow) : Bool :=
  decide (b.rule.priority < a.rule.priority) ||
    (decide (a.rule.priority = b.rule.priority) &&
      decide (a.rule.order_index ≤ b.rule.order_index))

/-- The second query of `computeResults`: active recommendation rules of the
answered topics, ordered by `(priority DESC, order_index ASC)`. -/
def queryTopicRecs (recs : List RecRule) (tops : List Topic)
    (topicIds : List ℕ) : List RecRow :=
  (recs.filterMap (fun r =>
    if topicIds.contains r.topic_id && r.is_active then
      (tops.find? (fun t => t.id == r.topic_id)).map (fun t =>
        { rule := r, dimension_id := t.dimension_id, topic_key := t.topic_key })
    else none)).mergeSort recRowLe

/-- Entry of `dimensionsMap.get(dimensionId).topics`. -/
structure GroupTopic where
  topicId : ℕ
  topicKey : String
  currentRating : JsNum
  targetRating : JsNum
deriving DecidableEq, Repr

/-- One entry of the insertion-ordered `dimensionsMap`. -/
structure DimGroup where
  id : ℕ
  title : String
  order : ℤ
  topics : List GroupTopic
deriving DecidableEq, Repr

/-- One iteration of the grouping loop: append the row's topic to its
dimension's bucket, creating the bucket on first sight (JS `Map` preserves
insertion order). -/
def addRow (groups : List DimGroup) (row : TRRow) : List DimGroup :=
  let entry : GroupTopic :=
    { topicId := row.topic_id
      topicKey := row.topic_key
      currentRating := toFiniteNumber row.current_rating
      targetRating := toFiniteNumber row.target_rating }
  if groups.any (fun g => g.id == row.dimension_id) then
    groups.map (fun g =>
      if g.id = row.dimension_id then { g with topics := g.topics ++ [entry] } else g)
  else
    groups ++ [{ id := row.dimension_id, title := row.dimension_title,
                 order := row.dim_order, topics := [entry] }]

/-- The `dimensionsMap` grouping pass of `computeResults`. -/
def groupByDimension (rows : List TRRow) : List DimGroup :=
  rows.foldl addRow []

/-- `Array.from(new Set(rows.map(r => r.topic_id)))`: deduplicate keeping
first occurrences. -/
def dedupFirst (l : List ℕ) : List ℕ :=
  l.foldl (fun acc x => if acc.contains x then acc else acc ++ [x]) []

/-- `recsByTopic.get(topicId) || []`: the query rows of one topic, in query
order (the JS `Map` grouping preserves per-key order). -/
def recsFor (recRows : List RecRow) (topicId : ℕ) : List RecRow :=
  recRows.filter (fun rr => rr.rule.topic_id == topicId)

/-- The snapshot object pushed for a matched rule. -/
def mkSnapshot (rr : RecRow) : Recommendation :=
  { id := rr.rule.id
    title := rr.rule.title
    description := rr.rule.description
    why := rr.rule.why
    what := rr.rule.what
    how := rr.rule.how
    action_items := rr.rule.action_items
    category := rr.rule.category
    priority := rr.rule.priority
    tags := rr.rule.tags
    topicId := rr.rule.topic_id
    topicKey := rr.topic_key }

/-- The matching pass for one joined row: skip the row if either rating is
not finite, otherwise snapshot every rule of this topic whose conditions
hold on `(score, target, matchGap score target)`. -/
def topicMatches (recRows : List RecRow) (row : TRRow) : List Recommendation :=
  match toFiniteNumber row.current_rating, toFiniteNumber row.target_rating with
  | some score, some target =>
      ((recsFor recRows row.topic_id).filter (fun rr =>
          matchesConditions rr.rule score target (matchGap score target))).map mkSnapshot
  | _, _ => []

/-- `matchedRecommendationsByDimension.get(dimensionId) || []` before the
rank/truncate loop: all matches discovered for the dimension's rows, in
discovery order. -/
def matchedRecsForDim (rows : List TRRow) (recRows : List RecRow)
    (dimensionId : ℕ) : List Recommendation :=
  (rows.filter (fun r => r.dimension_id == dimensionId)).flatMap (topicMatches recRows)

/-- The comparator `(a, b) => b.priority - a.priority` as a boolean order. -/
def recPriorityLe (a b : Recommendation) : Bool :=
  decide (b.priority ≤ a.priority)

/-- The rank/truncate loop body: stable sort by priority descending, keep
the first 5. -/
def rankRecommendations (l : List Recommendation) : List Recommendation :=
  (l.mergeSort recPriorityLe).take 5

/-- `calculatedDimensions` entry: a dimension group with its metrics. -/
structure CalcDim where
  id : ℕ
  title : String
  order : ℤ
  topics : List GroupTopic
  score : ℚ
  gap : ℚ
  priorityScore : ℚ
deriving DecidableEq, Repr

/-- The metric-computation loop over `dimensionsMap`. -/
def calcDimsOf (rows : List TRRow) : List CalcDim :=
  (groupByDimension rows).map (fun g =>
    let m := calculateDimensionMetrics
      (g.topics.map (fun t => { currentRating := t.currentRating, targetRating := t.targetRating }))
    { id := g.id, title := g.title, order := g.order, topics := g.topics,
      score := m.score, gap := m.gap, priorityScore := calculatePriorityScore m.gap })

/-- The comparator `(a, b) => b.priorityScore - a.priorityScore` as a
boolean order. -/
def calcDimLe (a b : CalcDim) : Bool :=
  decide (b.priorityScore ≤ a.priorityScore)

/-- `calculatedDimensions.sort(...)`: stable sort by priority score
descending. -/
def sortDims (l : List CalcDim) : List CalcDim :=
  l.mergeSort calcDimLe

/-- The batch of rows handed to `INSERT INTO computed_priorities`: the i-th
sorted dimension gets `rank_order = i + 1` and its ranked recommendation
snapshot; `computed_at` is `NOW()`. -/
def mkCPRows (sorted : List CalcDim) (rows : List TRRow) (recRows : List RecRow)
    (responseId now : ℕ) : List ComputedPriorityRow :=
  sorted.enum.map (fun p =>
    { response_id := responseId
      dimension_id := p.2.id
      dimension_score := p.2.score
      dimension_gap := p.2.gap
      priority_score := p.2.priorityScore
      rank_order := p.1 + 1
      recommendations := rankRecommendations (matchedRecsForDim rows recRows p.2.id)
      computed_at := now })

/-- `ON CONFLICT (response_id, dimension_id) DO UPDATE`: replace the row
with the conflicting key, or append when the key is new. -/
def upsertCP (table : List ComputedPriorityRow) (row : ComputedPriorityRow) :
    List ComputedPriorityRow :=
  if table.any (fun r => r.response_id == row.response_id && r.dimension_id == row.dimension_id) then
    table.map (fun r =>
      if r.response_id = row.response_id ∧ r.dimension_id = row.dimension_id then row else r)
  else
    table ++ [row]

/-- The whole batched insert, one upsert per `VALUES` tuple, in order. -/
def upsertAll (table : List ComputedPriorityRow) (batch : List ComputedPriorityRow) :
    List ComputedPriorityRow :=
  batch.foldl upsertCP table

/-- The finalizing `UPDATE assessment_responses SET status = 'completed',
completed_at = NOW(), overall_score = $2, overall_gap = $3 WHERE id = $1`. -/
def finalizeResponses (table : List AssessmentResponseRow) (responseId : ℕ)
    (os og : ℚ) (now : ℕ) : List AssessmentResponseRow :=
  table.map (fun r =>
    if r.id = responseId then
      { r with status := RespStatus.completed, completed_at := some now,
               overall_score := some os, overall_gap := some og }
    else r)

/-- Entry of the `dimensions` array in the return value of
`computeResults`. -/
structure DimResult where
  dimensionId : ℕ
  title : String
  score : ℚ
  gap : ℚ
  priorityScore : ℚ
deriving DecidableEq, Repr

/-- Return value of `computeResults`. -/
structure ComputeOutput where
  overallScore : ℚ
  overallGap : ℚ
  dimensions : List DimResult
deriving DecidableEq, Repr

/-- The database statements of `computeResults` that can fail before the
transaction commits. -/
inductive DbOp
  | selectResponses
  | selectRecs
  | insertPriorities
  | updateResponse
deriving DecidableEq, Repr

/-- The result rows of statement 1 of `computeResults` (the joined
`topic_responses` query). -/
def runRows (db : DB) (responseId : ℕ) : List TRRow :=
  queryTopicResponses db.topic_responses db.topics db.dimensions responseId

/-- `topicIds`: the deduplicated topic ids of the joined rows. -/
def runTopicIds (db : DB) (responseId : ℕ) : List ℕ :=
  dedupFirst ((runRows db responseId).map (fun r => r.topic_id))

/-- The rows of statement 2 (the recommendation query), which only runs
when at least one topic was answered (`if (topicIds.length > 0)`). -/
def runRecRows (db : DB) (responseId : ℕ) : List RecRow :=
  if (runTopicIds db responseId).length > 0 then
    queryTopicRecs db.topic_recommendations db.topics (runTopicIds db responseId)
  else []

/-- `calculatedDimensions` after the in-place descending sort. -/
def runSorted (db : DB) (responseId : ℕ) : List CalcDim :=
  sortDims (calcDimsOf (runRows db responseId))

/-- The `VALUES` batch of statement 3 (the `computed_priorities` upsert). -/
def runCPBatch (db : DB) (responseId now : ℕ) : List ComputedPriorityRow :=
  mkCPRows (runSorted db responseId) (runRows db responseId)
    (runRecRows db responseId) responseId now

/-- The database state after statement 3, which only runs when at least one
dimension was computed (`if (calculatedDimensions.length > 0)`). -/
def runDB1 (db : DB) (responseId now : ℕ) : DB :=
  if (runSorted db responseId).length > 0 then
    { db with computed_priorities :=
        upsertAll db.computed_priorities (runCPBatch db responseId now) }
  else db

/-- The overall metrics computed from the calculated dimensions. -/
def runOM (db : DB) (responseId : ℕ) : OverallMetrics :=
  calculateOverallMetrics
    ((runSorted db responseId).map (fun d => { score := d.score, gap := d.gap }))

/-- The database state after statement 4 (the finalizing update). -/
def runDB2 (db : DB) (responseId now : ℕ) : DB :=
  let db1 := runDB1 db responseId now
  let om := runOM db responseId
  { db1 with assessment_responses :=
      finalizeResponses db1.assessment_responses responseId om.overallScore om.overallGap now }

/-- The value returned by `computeResults` on success. -/
def runOutput (db : DB) (responseId : ℕ) : ComputeOutput :=
  { overallScore := (runOM db responseId).overallScore
    overallGap := (runOM db responseId).overallGap
    dimensions := (runSorted db responseId).map (fun d =>
      { dimensionId := d.id, title := d.title, score := d.score,
        gap := d.gap, priorityScore := d.priorityScore }) }

/-- The transaction body of `computeResults`, between `BEGIN` and `COMMIT`:
statements run in source order, each one first consulting the failure
oracle (a thrown database error aborts the rest of the body); the two
conditional statements can only fail when they actually execute, and all
reads precede all writes, as in the source. -/
def computeResultsTx (fail : DbOp → Bool) (db : DB) (responseId now : ℕ) :
    Except Unit (DB × ComputeOutput) :=
  if fail DbOp.selectResponses = true then Except.error ()
  else if (runTopicIds db responseId).length > 0 ∧ fail DbOp.selectRecs = true then
    Except.error ()
  else if (runSorted db responseId).length > 0 ∧ fail DbOp.insertPriorities = true then
    Except.error ()
  else if fail DbOp.updateResponse = true then Except.error ()
  else Except.ok (runDB2 db responseId now, runOutput db responseId)

/-- `ScoringService.computeResults`: run the transaction body; on success
`COMMIT` publishes the new state and the result is returned, on any error
`ROLLBACK` restores the original state and the error is rethrown. -/
def computeResults (fail : DbOp → Bool) (db : DB) (responseId now : ℕ) :
    DB × Except Unit ComputeOutput :=
  match computeResultsTx fail db responseId now with
  | Except.ok (db2, out) => (db2, Except.ok out)
  | Except.error e => (db, Except.error e)

/-- The failure oracle of a healthy database: no statement fails. -/
def noFail : DbOp → Bool := fun _ => false

/-- Spec-side view of a dimension's usable input: the pairs whose two
ratings are finite. -/
def validPairs (topics : List RatedPair) : List (ℚ × ℚ) :=
  topics.filterMap (fun t =>
    match t.currentRating, t.targetRating with
    | some c, some tg => some (c, tg)
    | _, _ => none)

/-! ## Helper lemmas -/

theorem normalizedGap_eq_max (c t : ℚ) :
    (calculateTopicGap c t).normalizedGap = max (t - c) 0 := by
  show (if t - c > 0 then t - c else 0) = max (t - c) 0
  rcases lt_or_le 0 (t - c) with h | h
  · rw [if_pos h, max_eq_left h.le]
  · rw [if_neg (not_lt.mpr h), max_eq_right h]

theorem round2_zero : round2 0 = 0 := by
  simp [round2]

theorem round2_nonneg {q : ℚ} (h : 0 ≤ q) : 0 ≤ round2 q := by
  have h1 : (0 : ℤ) ≤ round (100 * q) := by
    rw [round_eq]
    exact Int.le_floor.mpr (by push_cast; linarith)
  unfold round2
  positivity

theorem optAll_decide_iff {p : ℚ → Prop} [DecidablePred p] (o : Option ℚ) :
    (o.all fun v => decide (p v)) = true ↔ ∀ v ∈ o, p v := by
  cases o <;> simp [Option.all]

theorem matchesConditions_iff (r : RecRule) (score target gap : ℚ) :
    matchesConditions r score target gap = true ↔
      ((∀ v ∈ r.score_min, v ≤ score) ∧ (∀ v ∈ r.score_max, score ≤ v) ∧
       (∀ v ∈ r.target_min, v ≤ target) ∧ (∀ v ∈ r.target_max, target ≤ v) ∧
       (∀ v ∈ r.gap_min, v ≤ gap) ∧ (∀ v ∈ r.gap_max, gap ≤ v)) := by
  simp only [matchesConditions, Bool.and_eq_true, optAll_decide_iff, ge_iff_le]
  tauto

theorem foldl_dimStep_eq (topics : List RatedPair) (a b : ℚ) (n : ℕ) :
    topics.foldl dimStep (a, b, n) =
      (a + ((validPairs topics).map Prod.fst).sum,
       b + ((validPairs topics).map (fun p => max (p.2 - p.1) 0)).sum,
       n + (validPairs topics).length) := by
  induction topics generalizing a b n with
  | nil => simp [validPairs]
  | cons t ts ih =>
      rcases hc : t.currentRating with _ | c <;> rcases ht : t.targetRating with _ | tg <;>
        simp only [List.foldl_cons, dimStep, hc, ht, validPairs, List.filterMap_cons, ih,
          normalizedGap_eq_max, List.map_cons, List.sum_cons, List.length_cons,
          Prod.mk.injEq] <;>
        refine ⟨by ring, by ring, by omega⟩

theorem foldl_add_eq_sum {α : Type} (f : α → ℚ) (l : List α) (a : ℚ) :
    l.foldl (fun acc d => acc + f d) a = a + (l.map f).sum := by
  induction l generalizing a with
  | nil => simp
  | cons x xs ih => simp [ih]; ring

theorem recsFor_topic_eq (recRows : List RecRow) (topicId : ℕ) (rr : RecRow)
    (h : rr ∈ recsFor recRows topicId) : rr.rule.topic_id = topicId := by
  have := (List.mem_filter.mp h).2
  simpa using this

/-! ## Claim theorems -/

/-- **C7**: `calculateTopicGap` returns `gap = target - current` and
`normalizedGap = gap` when the gap is positive and `0` otherwise, i.e.
`normalizedGap = max (target - current) 0`; it is a pure function with no
error conditions. -/
theorem claim7_topic_gap (c t : ℚ) :
    (calculateTopicGap c t).gap = t - c ∧
    (calculateTopicGap c t).normalizedGap = (if t - c > 0 then t - c else 0) ∧
    (calculateTopicGap c t).normalizedGap = max (t - c) 0 :=
  ⟨rfl, rfl, normalizedGap_eq_max c t⟩

/-- **C2**: `calculateDimensionMetrics` discards every pair in which either
rating is not finite; on the remaining pairs it returns the mean current
rating and the mean normalized gap, each rounded to 2 decimals, and returns
`{score := 0, gap := 0}` when no valid pair remains (including the empty
list). -/
theorem claim2_dimension_metrics (topics : List RatedPair) :
    (validPairs topics = [] →
      calculateDimensionMetrics topics = { score := 0, gap := 0 }) ∧
    (validPairs topics ≠ [] →
      calculateDimensionMetrics topics =
        { score := round2 (((validPairs topics).map Prod.fst).sum /
                    (validPairs topics).length)
          gap := round2 (((validPairs topics).map (fun p => max (p.2 - p.1) 0)).sum /
                  (validPairs topics).length) }) := by
  have hfold := foldl_dimStep_eq topics 0 0 0
  constructor
  · intro hv
    unfold calculateDimensionMetrics
    rcases topics with _ | ⟨t, ts⟩
    · simp
    · simp only [List.length_cons, Nat.succ_ne_zero, if_false, hfold, hv]
      simp
  · intro hv
    have hlen : (validPairs topics).length ≠ 0 := by
      simpa [List.length_eq_zero] using hv
    have htop : topics.length ≠ 0 := by
      intro h0
      rcases List.length_eq_zero.mp h0 with rfl
      exact hv rfl
    unfold calculateDimensionMetrics
    rw [if_neg htop, hfold]
    simp only [zero_add]
    rw [if_neg hlen]

/-- **C8**: `calculateOverallMetrics` returns the unweighted arithmetic
mean of the dimension scores and gaps, each rounded to 2 decimals, and
returns zeros for an empty dimension list. -/
theorem claim8_overall_metrics (dims : List DimensionMetrics) :
    (dims = [] → calculateOverallMetrics dims = { overallScore := 0, overallGap := 0 }) ∧
    (dims ≠ [] →
      calculateOverallMetrics dims =
        { overallScore := round2 ((dims.map DimensionMetrics.score).sum / dims.length)
          overallGap := round2 ((dims.map DimensionMetrics.gap).sum / dims.length) }) := by
  constructor
  · rintro rfl
    rfl
  · intro hne
    have hlen : dims.length ≠ 0 := by
      simpa [List.length_eq_zero] using hne
    unfold calculateOverallMetrics
    rw [if_neg hlen, foldl_add_eq_sum DimensionMetrics.score,
      foldl_add_eq_sum DimensionMetrics.gap]
    simp

/-- **C1**: a rule matches a `(score, target, gap)` triple iff every one of
its six set bounds holds as an inclusive comparison (an unset bound never
excludes a rule); the rules considered by `computeResults` are exactly
active rules of the answered topics, the per-topic bucket only holds rules
of that topic, and every snapshot produced for a joined row carries that
row's topic. -/
theorem claim1_rule_matching :
    (∀ (r : RecRule) (score target gap : ℚ),
      matchesConditions r score target gap = true ↔
        ((∀ v ∈ r.score_min, v ≤ score) ∧ (∀ v ∈ r.score_max, score ≤ v) ∧
         (∀ v ∈ r.target_min, v ≤ target) ∧ (∀ v ∈ r.target_max, target ≤ v) ∧
         (∀ v ∈ r.gap_min, v ≤ gap) ∧ (∀ v ∈ r.gap_max, gap ≤ v))) ∧
    (∀ (recs : List RecRule) (tops : List Topic) (tids : List ℕ) (rr : RecRow),
      rr ∈ queryTopicRecs recs tops tids →
        rr.rule.is_active = true ∧ rr.rule.topic_id ∈ tids) ∧
    (∀ (recRows : List RecRow) (tid : ℕ) (rr : RecRow),
      rr ∈ recsFor recRows tid → rr.rule.topic_id = tid) ∧
    (∀ (recRows : List RecRow) (row : TRRow) (m : Recommendation),
      m ∈ topicMatches recRows row → m.topicId = row.topic_id) := by
  refine ⟨matchesConditions_iff, ?_, recsFor_topic_eq, ?_⟩
  · intro recs tops tids rr hmem
    unfold queryTopicRecs at hmem
    rw [List.mem_mergeSort] at hmem
    rcases List.mem_filterMap.mp hmem with ⟨r, _, hr⟩
    by_cases hcond : (tids.contains r.topic_id && r.is_active) = true
    · rw [if_pos hcond] at hr
      rcases Option.map_eq_some'.mp hr with ⟨t, _, rfl⟩
      have hsplit : tids.contains r.topic_id = true ∧ r.is_active = true := by
        simpa using hcond
      rcases hsplit with ⟨hc, ha⟩
      exact ⟨ha, by simpa using hc⟩
    · rw [if_neg hcond] at hr
      exact absurd hr (by simp)
  · intro recRows row m hmem
    unfold topicMatches at hmem
    rcases hcr : toFiniteNumber row.current_rating with _ | score <;>
      rcases htr : toFiniteNumber row.target_rating with _ | target <;>
      rw [hcr, htr] at hmem <;> simp at hmem
    rcases hmem with ⟨rr, ⟨h1, _⟩, rfl⟩
    have h2 := recsFor_topic_eq recRows row.topic_id rr h1
    simpa [mkSnapshot] using h2

/-- **C9**: the gap `computeResults` matches rules against is
`round2 (max 0 (target - score))`, which is never negative; for an
over-performing topic (`current > target`) the gap is `0`, so a set
`gap_max ≥ 0` bound is always satisfied there, while a set `gap_min > 0`
bound makes the rule fail to match. -/
theorem claim9_normalized_match_gap (score target : ℚ) (r : RecRule) :
    0 ≤ matchGap score target ∧
    (target < score → matchGap score target = 0) ∧
    (target < score → ∀ v ∈ r.gap_max, 0 ≤ v → matchGap score target ≤ v) ∧
    (target < score → ∀ v ∈ r.gap_min, 0 < v →
      matchesConditions r score target (matchGap score target) = false) := by
  have hzero : target < score → matchGap score target = 0 := by
    intro h
    unfold matchGap
    rw [max_eq_left (by linarith), round2_zero]
  refine ⟨round2_nonneg (le_max_left 0 (target - score)), hzero, ?_, ?_⟩
  · intro h v _ hv
    rw [hzero h]
    exact hv
  · intro h v hv hvpos
    rw [Bool.eq_false_iff]
    intro htrue
    have h5 := ((matchesConditions_iff r score target (matchGap score target)).mp htrue).2.2.2.2.1
    have := h5 v hv
    rw [hzero h] at this
    linarith

/-- Witness for C2 at the spec scenario: current = {2,3,4}, target = {4,4,4}
gives score 3.00 and gap 1.00. -/
theorem claim2_dimension_metrics_witness :
    validPairs [⟨some 2, some 4⟩, ⟨some 3, some 4⟩, ⟨some 4, some 4⟩] ≠ [] ∧
    calculateDimensionMetrics [⟨some 2, some 4⟩, ⟨some 3, some 4⟩, ⟨some 4, some 4⟩] =
      { score := 3, gap := 1 } := by
  have hne : validPairs [⟨some 2, some 4⟩, ⟨some 3, some 4⟩, ⟨some 4, some 4⟩] ≠ [] := by
    simp [validPairs]
  refine ⟨hne, ?_⟩
  have h := (claim2_dimension_metrics
    [⟨some 2, some 4⟩, ⟨some 3, some 4⟩, ⟨some 4, some 4⟩]).2 hne
  have hv : validPairs [⟨some 2, some 4⟩, ⟨some 3, some 4⟩, ⟨some 4, some 4⟩] =
      [(2, 4), (3, 4), (4, 4)] := rfl
  rw [h, hv]
  norm_num [round2, round_eq, max_def, DimensionMetrics.mk.injEq]

/-- Witness for C8: two dimensions `{score,gap} = {2,1}, {4,3}` average to
`{overallScore := 3, overallGap := 2}`. -/
theorem claim8_overall_metrics_witness :
    ([⟨2, 1⟩, ⟨4, 3⟩] : List DimensionMetrics) ≠ [] ∧
    calculateOverallMetrics [⟨2, 1⟩, ⟨4, 3⟩] = { overallScore := 3, overallGap := 2 } := by
  refine ⟨by simp, ?_⟩
  have h := (claim8_overall_metrics [⟨2, 1⟩, ⟨4, 3⟩]).2 (by simp)
  rw [h]
  norm_num [round2, round_eq, OverallMetrics.mk.injEq]

/-- Witness for C1 at the spec scenario: a rule with `score_max = 2.5`,
`gap_min = 0.5` and no other bounds matches `(score 2, target 4, gap 2)`. -/
theorem claim1_rule_matching_witness :
    matchesConditions
      { id := 1, topic_id := 10, score_min := none, score_max := some (5/2),
        target_min := none, target_max := none, gap_min := some (1/2), gap_max := none,
        title := "a", description := none, why := none, what := none, how := none,
        action_items := [], category := "Project", priority := 70, tags := [],
        is_active := true, order_index := 0 } 2 4 2 = true := by
  apply (claim1_rule_matching.1 _ 2 4 2).mpr
  refine ⟨?_, ?_, ?_, ?_, ?_, ?_⟩ <;> simp <;> norm_num

/-- Witness for C9: with current 4 over target 2 the matching gap is 0, and
a rule whose only set bound is `gap_min = 1` does not match. -/
theorem claim9_normalized_match_gap_witness :
    matchGap 4 2 = 0 ∧
    matchesConditions
      { id := 2, topic_id := 11, score_min := none, score_max := none,
        target_min := none, target_max := none, gap_min := some 1, gap_max := none,
        title := "b", description := none, why := none, what := none, how := none,
        action_items := [], category := "Project", priority := 50, tags := [],
        is_active := true, order_index := 0 } 4 2 (matchGap 4 2) = false := by
  have h := claim9_normalized_match_gap 4 2
    { id := 2, topic_id := 11, score_min := none, score_max := none,
      target_min := none, target_max := none, gap_min := some 1, gap_max := none,
      title := "b", description := none, why := none, what := none, how := none,
      action_items := [], category := "Project", priority := 50, tags := [],
      is_active := true, order_index := 0 }
  exact ⟨h.2.1 (by norm_num), h.2.2.2 (by norm_num) 1 (by simp) (by norm_num)⟩

/-! ## Ranking helpers (C4, C5) -/

theorem recPriorityLe_trans (a b c : Recommendation) :
    recPriorityLe a b = true → recPriorityLe b c = true → recPriorityLe a c = true := by
  simp only [recPriorityLe, decide_eq_true_eq]
  exact fun h1 h2 => h2.trans h1

theorem recPriorityLe_total (a b : Recommendation) :
    (recPriorityLe a b || recPriorityLe b a) = true := by
  simp only [recPriorityLe, Bool.or_eq_true, decide_eq_true_eq]
  exact le_total b.priority a.priority

theorem calcDimLe_trans (a b c : CalcDim) :
    calcDimLe a b = true → calcDimLe b c = true → calcDimLe a c = true := by
  simp only [calcDimLe, decide_eq_true_eq]
  exact fun h1 h2 => h2.trans h1

theorem calcDimLe_total (a b : CalcDim) :
    (calcDimLe a b || calcDimLe b a) = true := by
  simp only [calcDimLe, Bool.or_eq_true, decide_eq_true_eq]
  exact le_total b.priorityScore a.priorityScore

/-- The stable sort keeps all elements of one priority in discovery order:
filtering the sorted list to one priority value gives exactly the filtered
input. -/
theorem mergeSort_filter_priority (l : List Recommendation) (p : ℤ) :
    (l.mergeSort recPriorityLe).filter (fun r => r.priority == p) =
      l.filter (fun r => r.priority == p) := by
  set q : Recommendation → Bool := fun r => r.priority == p with hq
  have hmemq : ∀ a ∈ l.filter q, q a = true := fun a ha => (List.mem_filter.mp ha).2
  have hpair : List.Pairwise (fun a b => recPriorityLe a b = true) (l.filter q) := by
    apply List.pairwise_of_forall_mem_list
    intro a ha b hb
    have hap : a.priority = p := by simpa [hq] using hmemq a ha
    have hbp : b.priority = p := by simpa [hq] using hmemq b hb
    simp [recPriorityLe, hap, hbp]
  have hstable : (l.filter q).Sublist (l.mergeSort recPriorityLe) :=
    List.sublist_mergeSort recPriorityLe_trans recPriorityLe_total hpair (List.filter_sublist l)
  have h1 : (l.filter q).Sublist ((l.mergeSort recPriorityLe).filter q) := by
    have := List.Sublist.filter q hstable
    rwa [List.filter_eq_self.mpr hmemq] at this
  have h2 : ((l.mergeSort recPriorityLe).filter q).length = (l.filter q).length :=
    (List.Perm.filter q (l.mergeSort_perm recPriorityLe)).length_eq
  exact (h1.eq_of_length h2.symm).symm

/-- **C4**: the per-dimension ranked list is the stable descending-priority
sort of the discovered matches truncated to 5: it equals
`take 5` of the stable sort, has length `min 5 (number of matches)`, is
sorted by priority descending, the sort is a permutation that preserves the
discovery order of every fixed priority value (stability, no secondary
key), and every persisted row's snapshot is exactly this list for its
dimension. -/
theorem claim4_dimension_ranker :
    (∀ l : List Recommendation,
      rankRecommendations l = (l.mergeSort recPriorityLe).take 5 ∧
      (rankRecommendations l).length = min 5 l.length ∧
      List.Pairwise (fun a b => b.priority ≤ a.priority) (rankRecommendations l) ∧
      (l.mergeSort recPriorityLe).Perm l ∧
      (∀ p : ℤ, (l.mergeSort recPriorityLe).filter (fun r => r.priority == p) =
        l.filter (fun r => r.priority == p))) ∧
    (∀ (sorted : List CalcDim) (rows : List TRRow) (recRows : List RecRow)
      (rid now : ℕ) (cp : ComputedPriorityRow),
      cp ∈ mkCPRows sorted rows recRows rid now →
        cp.recommendations =
          rankRecommendations (matchedRecsForDim rows recRows cp.dimension_id)) := by
  constructor
  · intro l
    refine ⟨rfl, ?_, ?_, l.mergeSort_perm recPriorityLe, mergeSort_filter_priority l⟩
    · rw [rankRecommendations, List.length_take,
        (l.mergeSort_perm recPriorityLe).length_eq]
    · have hs : List.Pairwise (fun a b => recPriorityLe a b = true)
          (l.mergeSort recPriorityLe) :=
        List.sorted_mergeSort recPriorityLe_trans recPriorityLe_total l
      have ht : List.Pairwise (fun a b => recPriorityLe a b = true)
          (rankRecommendations l) :=
        List.Pairwise.sublist (List.take_sublist 5 _) hs
      exact ht.imp (fun h => by simpa [recPriorityLe] using h)
  · intro sorted rows recRows rid now cp hmem
    rcases List.mem_map.mp hmem with ⟨pr, _, rfl⟩
    rfl

/-- Witness for C4 at the spec scenario: matches discovered in order
priorities 70, 90, 70 rank as 90 first, then the tied 70s in discovery
order. -/
theorem claim4_dimension_ranker_witness :
    rankRecommendations
      [{ id := 1, title := "a", description := none, why := none, what := none,
         how := none, action_items := [], category := "Project", priority := 70,
         tags := [], topicId := 1, topicKey := "k1" },
       { id := 2, title := "b", description := none, why := none, what := none,
         how := none, action_items := [], category := "Project", priority := 90,
         tags := [], topicId := 2, topicKey := "k2" },
       { id := 3, title := "c", description := none, why := none, what := none,
         how := none, action_items := [], category := "Project", priority := 70,
         tags := [], topicId := 3, topicKey := "k3" }] =
      [{ id := 2, title := "b", description := none, why := none, what := none,
         how := none, action_items := [], category := "Project", priority := 90,
         tags := [], topicId := 2, topicKey := "k2" },
       { id := 1, title := "a", description := none, why := none, what := none,
         how := none, action_items := [], category := "Project", priority := 70,
         tags := [], topicId := 1, topicKey := "k1" },
       { id := 3, title := "c", description := none, why := none, what := none,
         how := none, action_items := [], category := "Project", priority := 70,
         tags := [], topicId := 3, topicKey := "k3" }] := by
  rw [(claim4_dimension_ranker.1 _).1]
  norm_num [List.mergeSort, recPriorityLe]

/-! ## Rank-order helpers (C5) -/

theorem enumFrom_map_fst_succ {α : Type} (l : List α) (k : ℕ) :
    (List.enumFrom k l).map (fun p => p.1 + 1) = List.range' (k + 1) l.length := by
  induction l generalizing k with
  | nil => simp
  | cons x xs ih => simp [List.range'_succ, ih]

theorem enumFrom_map_snd_comp {α β : Type} (g : α → β) (l : List α) (k : ℕ) :
    (List.enumFrom k l).map (fun p => g p.2) = l.map g := by
  have h1 : (fun p : ℕ × α => g p.2) = g ∘ Prod.snd := rfl
  rw [h1, ← List.map_map, List.enumFrom_map_snd]

theorem mkCPRows_map_rank (sorted : List CalcDim) (rows : List TRRow)
    (recRows : List RecRow) (rid now : ℕ) :
    (mkCPRows sorted rows recRows rid now).map ComputedPriorityRow.rank_order =
      List.range' 1 sorted.length := by
  unfold mkCPRows
  rw [List.map_map]
  exact enumFrom_map_fst_succ sorted 0

theorem mkCPRows_map_ps (sorted : List CalcDim) (rows : List TRRow)
    (recRows : List RecRow) (rid now : ℕ) :
    (mkCPRows sorted rows recRows rid now).map ComputedPriorityRow.priority_score =
      sorted.map CalcDim.priorityScore := by
  unfold mkCPRows
  rw [List.map_map]
  exact enumFrom_map_snd_comp CalcDim.priorityScore sorted 0

theorem mkCPRows_map_dim (sorted : List CalcDim) (rows : List TRRow)
    (recRows : List RecRow) (rid now : ℕ) :
    (mkCPRows sorted rows recRows rid now).map ComputedPriorityRow.dimension_id =
      sorted.map CalcDim.id := by
  unfold mkCPRows
  rw [List.map_map]
  exact enumFrom_map_snd_comp CalcDim.id sorted 0

theorem mkCPRows_length (sorted : List CalcDim) (rows : List TRRow)
    (recRows : List RecRow) (rid now : ℕ) :
    (mkCPRows sorted rows recRows rid now).length = sorted.length := by
  have := congrArg List.length (mkCPRows_map_rank sorted rows recRows rid now)
  simpa using this

theorem addRow_id_nodup (groups : List DimGroup) (row : TRRow)
    (h : (groups.map DimGroup.id).Nodup) :
    ((addRow groups row).map DimGroup.id).Nodup := by
  simp only [addRow]
  by_cases hc : groups.any (fun g => g.id == row.dimension_id) = true
  · rw [if_pos hc, List.map_map]
    have heq : (groups.map (DimGroup.id ∘ fun g =>
        if g.id = row.dimension_id then
          { g with topics := g.topics ++
              [{ topicId := row.topic_id, topicKey := row.topic_key,
                 currentRating := toFiniteNumber row.current_rating,
                 targetRating := toFiniteNumber row.target_rating }] }
        else g)) = groups.map DimGroup.id := by
      apply List.map_congr_left
      intro g _
      by_cases hg : g.id = row.dimension_id <;> simp [hg]
    rw [heq]
    exact h
  · rw [if_neg hc, List.map_append]
    rw [List.nodup_append]
    refine ⟨h, by simp, ?_⟩
    intro a ha hb
    simp only [List.map_cons, List.map_nil, List.mem_singleton] at hb
    subst hb
    rcases List.mem_map.mp ha with ⟨g, hg, hid⟩
    exact hc (List.any_eq_true.mpr ⟨g, hg, by simp [hid]⟩)

theorem foldl_addRow_nodup (rows : List TRRow) (groups : List DimGroup)
    (h : (groups.map DimGroup.id).Nodup) :
    ((rows.foldl addRow groups).map DimGroup.id).Nodup := by
  induction rows generalizing groups with
  | nil => exact h
  | cons r rs ih => exact ih _ (addRow_id_nodup _ _ h)

theorem groupByDimension_id_nodup (rows : List TRRow) :
    ((groupByDimension rows).map DimGroup.id).Nodup :=
  foldl_addRow_nodup rows [] (by simp)

theorem calcDimsOf_map_id (rows : List TRRow) :
    (calcDimsOf rows).map CalcDim.id = (groupByDimension rows).map DimGroup.id := by
  unfold calcDimsOf
  rw [List.map_map]
  rfl

theorem sortDims_id_nodup (rows : List TRRow) :
    ((sortDims (calcDimsOf rows)).map CalcDim.id).Nodup := by
  have hperm : (sortDims (calcDimsOf rows)).Perm (calcDimsOf rows) :=
    List.mergeSort_perm _ _
  rw [(hperm.map CalcDim.id).nodup_iff, calcDimsOf_map_id]
  exact groupByDimension_id_nodup rows

theorem sortDims_pairwise (l : List CalcDim) :
    List.Pairwise (fun a b => b.priorityScore ≤ a.priorityScore) (sortDims l) := by
  have hs := List.sorted_mergeSort calcDimLe_trans calcDimLe_total l
  exact hs.imp (fun h => by simpa [calcDimLe] using h)

/-- **C5**: the batch persisted for a response assigns `rank_order` exactly
`1..N` over the dimensions sorted by `priorityScore` descending: the rank
column is the sequence `1..N`, there is one row per dimension (all for the
given response), rows are ordered by non-increasing `priorityScore`, a
strictly greater `priorityScore` always gets a strictly smaller
`rank_order`, and the rank-1 row has a maximal `priorityScore`. -/
theorem claim5_rank_assignment (rows : List TRRow) (recRows : List RecRow)
    (rid now : ℕ) (cps : List ComputedPriorityRow)
    (hcps : cps = mkCPRows (sortDims (calcDimsOf rows)) rows recRows rid now) :
    cps.map ComputedPriorityRow.rank_order = List.range' 1 cps.length ∧
    (∀ cp ∈ cps, cp.response_id = rid) ∧
    (cps.map ComputedPriorityRow.dimension_id).Nodup ∧
    List.Pairwise (fun a b => b.priority_score ≤ a.priority_score) cps ∧
    (∀ i j : Fin cps.length,
      (cps.get j).priority_score < (cps.get i).priority_score →
        (cps.get i).rank_order < (cps.get j).rank_order) ∧
    (∀ first ∈ cps.head?, ∀ cp ∈ cps, cp.priority_score ≤ first.priority_score) := by
  subst hcps
  set sorted := sortDims (calcDimsOf rows) with hsorted
  have hlen := mkCPRows_length sorted rows recRows rid now
  have hrankmap : (mkCPRows sorted rows recRows rid now).map ComputedPriorityRow.rank_order =
      List.range' 1 (mkCPRows sorted rows recRows rid now).length := by
    rw [hlen]
    exact mkCPRows_map_rank sorted rows recRows rid now
  have hpair : List.Pairwise (fun a b => b.priority_score ≤ a.priority_score)
      (mkCPRows sorted rows recRows rid now) := by
    unfold mkCPRows
    rw [List.pairwise_map]
    have h1 : List.Pairwise
        (fun p q : ℕ × CalcDim => q.2.priorityScore ≤ p.2.priorityScore)
        (List.enumFrom 0 sorted) := by
      have h2 := sortDims_pairwise (calcDimsOf rows)
      rw [← hsorted] at h2
      rw [← List.enumFrom_map_snd 0 sorted, List.pairwise_map] at h2
      exact h2
    exact h1
  have hget_rank : ∀ i : Fin (mkCPRows sorted rows recRows rid now).length,
      ((mkCPRows sorted rows recRows rid now).get i).rank_order = 1 + i.val := by
    intro i
    have hlt1 : i.val < ((mkCPRows sorted rows recRows rid now).map
        ComputedPriorityRow.rank_order).length := by
      simpa using i.isLt
    have hlt2 : i.val < (List.range' 1 (mkCPRows sorted rows recRows rid now).length).length := by
      simpa using i.isLt
    have h4 : ((mkCPRows sorted rows recRows rid now).map
        ComputedPriorityRow.rank_order)[i.val]? =
        (List.range' 1 (mkCPRows sorted rows recRows rid now).length)[i.val]? := by
      rw [hrankmap]
    rw [List.getElem?_eq_getElem hlt1, List.getElem?_eq_getElem hlt2] at h4
    simp only [List.getElem_map, List.getElem_range', Option.some.injEq] at h4
    simpa [List.get_eq_getElem] using h4
  refine ⟨hrankmap, ?_, ?_, hpair, ?_, ?_⟩
  · intro cp hcp
    unfold mkCPRows at hcp
    rcases List.mem_map.mp hcp with ⟨p, _, rfl⟩
    rfl
  · rw [mkCPRows_map_dim]
    exact sortDims_id_nodup rows
  · intro i j hlt
    rw [hget_rank i, hget_rank j]
    have htri := lt_trichotomy i j
    rcases htri with h | h | h
    · have : i.val < j.val := h
      omega
    · subst h
      exact absurd hlt (lt_irrefl _)
    · have hp := List.pairwise_iff_get.mp hpair j i h
      exact absurd hlt (not_lt.mpr hp)
  · intro first hfirst cp hcp
    rcases hl : mkCPRows sorted rows recRows rid now with _ | ⟨a, t⟩
    · rw [hl] at hfirst
      simp at hfirst
    · rw [hl] at hfirst hcp
      simp only [List.head?_cons, Option.mem_def, Option.some.injEq] at hfirst
      subst hfirst
      rw [hl] at hpair
      rcases List.mem_cons.mp hcp with rfl | hmem
      · exact le_refl _
      · exact (List.pairwise_cons.mp hpair).1 cp hmem

/-- Witness for C5: two answered dimensions, the one with the larger gap
(dimension 1: 2 rated against target 4) ranks first; ranks are exactly 1, 2. -/
theorem claim5_rank_assignment_witness :
    (mkCPRows (sortDims (calcDimsOf
        [{ id := 1, topic_id := 1, current_rating := some 2, target_rating := some 4,
           topic_key := "t1", dimension_id := 1, dimension_title := "d1",
           dim_order := 0, topic_order := 0 },
         { id := 2, topic_id := 2, current_rating := some 4, target_rating := some 4,
           topic_key := "t2", dimension_id := 2, dimension_title := "d2",
           dim_order := 1, topic_order := 0 }]))
      [{ id := 1, topic_id := 1, current_rating := some 2, target_rating := some 4,
         topic_key := "t1", dimension_id := 1, dimension_title := "d1",
         dim_order := 0, topic_order := 0 },
       { id := 2, topic_id := 2, current_rating := some 4, target_rating := some 4,
         topic_key := "t2", dimension_id := 2, dimension_title := "d2",
         dim_order := 1, topic_order := 0 }] [] 7 0).map
        ComputedPriorityRow.rank_order = [1, 2] := by
  have h := (claim5_rank_assignment
    [{ id := 1, topic_id := 1, current_rating := some 2, target_rating := some 4,
       topic_key := "t1", dimension_id := 1, dimension_title := "d1",
       dim_order := 0, topic_order := 0 },
     { id := 2, topic_id := 2, current_rating := some 4, target_rating := some 4,
       topic_key := "t2", dimension_id := 2, dimension_title := "d2",
       dim_order := 1, topic_order := 0 }] [] 7 0 _ rfl).1
  rw [h, mkCPRows_length]
  rw [show (sortDims (calcDimsOf
      [{ id := 1, topic_id := 1, current_rating := some 2, target_rating := some 4,
         topic_key := "t1", dimension_id := 1, dimension_title := "d1",
         dim_order := 0, topic_order := 0 },
       { id := 2, topic_id := 2, current_rating := some 4, target_rating := some 4,
         topic_key := "t2", dimension_id := 2, dimension_title := "d2",
         dim_order := 1, topic_order := 0 }])).length = 2 from by
    unfold sortDims
    rw [(List.mergeSort_perm _ _).length_eq]
    rfl]
  rfl

/-! ## Transaction-flow helpers (C3, C10, C6) -/

theorem computeResults_noFail (db : DB) (rid now : ℕ) :
    computeResults noFail db rid now = (runDB2 db rid now, Except.ok (runOutput db rid)) := by
  simp [computeResults, computeResultsTx, noFail]

/-- **C3**: if any statement of `computeResults` fails before the commit,
the caller sees the error and the rolled-back state is the original one —
no `computed_priorities` row and no `assessment_responses` change is
observable; moreover a failure of the first or of the final statement
(which always execute) necessarily produces such an error. -/
theorem claim3_transaction_rollback (fail : DbOp → Bool) (db : DB) (rid now : ℕ) :
    (∀ e, (computeResults fail db rid now).2 = Except.error e →
      (computeResults fail db rid now).1 = db ∧
      (computeResults fail db rid now).1.computed_priorities = db.computed_priorities ∧
      (computeResults fail db rid now).1.assessment_responses = db.assessment_responses) ∧
    ((fail DbOp.selectResponses = true ∨ fail DbOp.updateResponse = true) →
      ∃ e, (computeResults fail db rid now).2 = Except.error e) := by
  constructor
  · intro e herr
    unfold computeResults at herr ⊢
    rcases htx : computeResultsTx fail db rid now with e2 | ⟨db2, out⟩
    · exact ⟨rfl, rfl, rfl⟩
    · rw [htx] at herr
      exact Except.noConfusion herr
  · intro hf
    unfold computeResults computeResultsTx
    by_cases h1 : fail DbOp.selectResponses = true
    · rw [if_pos h1]
      exact ⟨(), rfl⟩
    · rcases hf with hf | hf
      · exact absurd hf h1
      · rw [if_neg h1]
        by_cases h2 : (runTopicIds db rid).length > 0 ∧ fail DbOp.selectRecs = true
        · rw [if_pos h2]
          exact ⟨(), rfl⟩
        · rw [if_neg h2]
          by_cases h3 : (runSorted db rid).length > 0 ∧ fail DbOp.insertPriorities = true
          · rw [if_pos h3]
            exact ⟨(), rfl⟩
          · rw [if_neg h3, if_pos hf]
            exact ⟨(), rfl⟩

/-- A one-response store used by the C3 witness. -/
def dbRollback : DB :=
  { topics := []
    dimensions := []
    topic_responses := []
    topic_recommendations := []
    assessment_responses :=
      [{ id := 1, status := RespStatus.in_progress, overall_score := none,
         overall_gap := none, completed_at := none }]
    computed_priorities := [] }

/-- Witness for C3: with the finalizing update made to fail, the state
observable after the failed call is exactly the initial one. -/
theorem claim3_transaction_rollback_witness :
    (computeResults (fun op => decide (op = DbOp.updateResponse)) dbRollback 1 0).1 =
      dbRollback := by
  have h := claim3_transaction_rollback
    (fun op => decide (op = DbOp.updateResponse)) dbRollback 1 0
  rcases h.2 (Or.inr (by decide)) with ⟨e, he⟩
  exact (h.1 e he).1

theorem runRows_eq_nil (db : DB) (rid : ℕ)
    (h : ∀ tr ∈ db.topic_responses, tr.response_id ≠ rid) :
    runRows db rid = [] := by
  unfold runRows queryTopicResponses
  have hfm : db.topic_responses.filterMap (joinRow db.topics db.dimensions rid) = [] := by
    rw [List.filterMap_eq_nil_iff]
    intro tr htr
    unfold joinRow
    rw [if_neg (h tr htr)]
  rw [hfm, List.mergeSort_nil]

/-- **C10**: for a response with zero topic-response rows the flow raises
no error (the two conditional statements never execute): no
`computed_priorities` row is written, the returned result is all zeros with
an empty dimension list, and the finalizing update still runs, so a
matching response row ends up `completed` with zero overall fields. -/
theorem claim10_empty_response (fail : DbOp → Bool) (db : DB) (rid now : ℕ)
    (hempty : ∀ tr ∈ db.topic_responses, tr.response_id ≠ rid)
    (h1 : fail DbOp.selectResponses = false)
    (h4 : fail DbOp.updateResponse = false) :
    (computeResults fail db rid now).2 =
      Except.ok { overallScore := 0, overallGap := 0, dimensions := [] } ∧
    (computeResults fail db rid now).1.computed_priorities = db.computed_priorities ∧
    (computeResults fail db rid now).1.assessment_responses =
      finalizeResponses db.assessment_responses rid 0 0 now ∧
    (∀ r ∈ (computeResults fail db rid now).1.assessment_responses,
      r.id = rid → r.status = RespStatus.completed ∧
        r.overall_score = some 0 ∧ r.overall_gap = some 0) := by
  have hrows : runRows db rid = [] := runRows_eq_nil db rid hempty
  have htids : runTopicIds db rid = [] := by
    unfold runTopicIds
    rw [hrows]
    rfl
  have hsorted : runSorted db rid = [] := by
    unfold runSorted calcDimsOf groupByDimension
    rw [hrows]
    simp [sortDims, List.mergeSort_nil]
  have hom : runOM db rid = { overallScore := 0, overallGap := 0 } := by
    unfold runOM
    rw [hsorted]
    rfl
  have hout : runOutput db rid = { overallScore := 0, overallGap := 0, dimensions := [] } := by
    unfold runOutput
    rw [hsorted, hom]
    simp
  have hdb1 : runDB1 db rid now = db := by
    unfold runDB1
    rw [hsorted]
    simp
  have hdb2 : runDB2 db rid now =
      { db with assessment_responses := finalizeResponses db.assessment_responses rid 0 0 now } := by
    unfold runDB2
    rw [hdb1, hom]
  have hrun : computeResults fail db rid now =
      (runDB2 db rid now, Except.ok (runOutput db rid)) := by
    unfold computeResults computeResultsTx
    rw [if_neg (by simp [h1]), if_neg (by simp [htids]), if_neg (by simp [hsorted]),
      if_neg (by simp [h4])]
  rw [hrun, hdb2, hout]
  refine ⟨rfl, rfl, rfl, ?_⟩
  intro r hr hid
  unfold finalizeResponses at hr
  rcases List.mem_map.mp hr with ⟨orig, _, rfl⟩
  by_cases ho : orig.id = rid
  · rw [if_pos ho]
    exact ⟨rfl, rfl, rfl⟩
  · rw [if_neg ho] at hid ⊢
    exact absurd hid ho

/-- A store whose only topic response belongs to another response id, used
by the C10 witness. -/
def dbNoAnswers : DB :=
  { topics := []
    dimensions := []
    topic_responses :=
      [{ id := 5, response_id := 2, topic_id := 3, current_rating := some 2,
         target_rating := some 4 }]
    topic_recommendations := []
    assessment_responses :=
      [{ id := 1, status := RespStatus.in_progress, overall_score := none,
         overall_gap := none, completed_at := none }]
    computed_priorities := [] }

/-! ## Upsert idempotence (C6) -/

/-- The upsert key `(response_id, dimension_id)` of two rows agrees. -/
abbrev keyMatch (a b : ComputedPriorityRow) : Prop :=
  a.response_id = b.response_id ∧ a.dimension_id = b.dimension_id

/-- Erase the only column `ON CONFLICT ... DO UPDATE` refreshes
unconditionally: `computed_at = NOW()`. -/
def clearStamp (r : ComputedPriorityRow) : ComputedPriorityRow :=
  { r with computed_at := 0 }

/-- The engine-written columns of a response row (everything except the
timestamps). -/
def stripTimes (r : AssessmentResponseRow) : ℕ × RespStatus × Option ℚ × Option ℚ :=
  (r.id, r.status, r.overall_score, r.overall_gap)

theorem keyMatch_symm {a b : ComputedPriorityRow} (h : keyMatch a b) : keyMatch b a :=
  ⟨h.1.symm, h.2.symm⟩

theorem upsertCP_map_clearStamp (t : List ComputedPriorityRow) (r : ComputedPriorityRow) :
    (upsertCP t r).map clearStamp = upsertCP (t.map clearStamp) (clearStamp r) := by
  unfold upsertCP
  have hany : (t.map clearStamp).any (fun x => x.response_id == (clearStamp r).response_id &&
      x.dimension_id == (clearStamp r).dimension_id) =
      t.any (fun x => x.response_id == r.response_id && x.dimension_id == r.dimension_id) := by
    rw [List.any_map]
    rfl
  rw [hany]
  by_cases hc : t.any (fun x =>
      x.response_id == r.response_id && x.dimension_id == r.dimension_id) = true
  · rw [if_pos hc, if_pos hc, List.map_map, List.map_map]
    apply List.map_congr_left
    intro x _
    simp only [Function.comp]
    by_cases hx : x.response_id = r.response_id ∧ x.dimension_id = r.dimension_id
    · have hx2 : (clearStamp x).response_id = (clearStamp r).response_id ∧
          (clearStamp x).dimension_id = (clearStamp r).dimension_id := hx
      rw [if_pos hx, if_pos hx2]
    · have hx2 : ¬ ((clearStamp x).response_id = (clearStamp r).response_id ∧
          (clearStamp x).dimension_id = (clearStamp r).dimension_id) := hx
      rw [if_neg hx, if_neg hx2]
  · rw [if_neg hc, if_neg hc, List.map_append]
    rfl

theorem upsertAll_map_clearStamp (batch t : List ComputedPriorityRow) :
    (upsertAll t batch).map clearStamp = upsertAll (t.map clearStamp) (batch.map clearStamp) := by
  induction batch generalizing t with
  | nil => rfl
  | cons b bs ih =>
      show (upsertAll (upsertCP t b) bs).map clearStamp = _
      rw [ih (upsertCP t b), upsertCP_map_clearStamp]
      rfl

theorem upsertCP_self (t : List ComputedPriorityRow) (r : ComputedPriorityRow)
    (hu : ∀ x ∈ t, keyMatch x r → x = r) (hp : ∃ x ∈ t, keyMatch x r) :
    upsertCP t r = t := by
  unfold upsertCP
  have hany : t.any (fun x =>
      x.response_id == r.response_id && x.dimension_id == r.dimension_id) = true := by
    rcases hp with ⟨x, hx, hk⟩
    exact List.any_eq_true.mpr ⟨x, hx, by simp [hk.1, hk.2]⟩
  rw [if_pos hany]
  have hmap : t.map (fun x =>
      if x.response_id = r.response_id ∧ x.dimension_id = r.dimension_id then r else x) =
      t.map id := by
    apply List.map_congr_left
    intro x hx
    by_cases hk : x.response_id = r.response_id ∧ x.dimension_id = r.dimension_id
    · rw [if_pos hk, id_eq]
      exact (hu x hx hk).symm
    · rw [if_neg hk, id_eq]
  rw [hmap, List.map_id]

theorem upsertCP_sets_key (t : List ComputedPriorityRow) (r : ComputedPriorityRow) :
    (∀ x ∈ upsertCP t r, keyMatch x r → x = r) ∧ (∃ x ∈ upsertCP t r, keyMatch x r) := by
  unfold upsertCP
  by_cases hc : t.any (fun x =>
      x.response_id == r.response_id && x.dimension_id == r.dimension_id) = true
  · rw [if_pos hc]
    constructor
    · intro x hx hk
      rcases List.mem_map.mp hx with ⟨y, hy, rfl⟩
      by_cases hyk : y.response_id = r.response_id ∧ y.dimension_id = r.dimension_id
      · rw [if_pos hyk]
      · rw [if_neg hyk] at hk ⊢
        exact absurd hk hyk
    · rcases List.any_eq_true.mp hc with ⟨y, hy, hyb⟩
      have hyk : y.response_id = r.response_id ∧ y.dimension_id = r.dimension_id := by
        simpa using hyb
      exact ⟨r, List.mem_map.mpr ⟨y, hy, if_pos hyk⟩, ⟨rfl, rfl⟩⟩
  · rw [if_neg hc]
    constructor
    · intro x hx hk
      rcases List.mem_append.mp hx with hx | hx
      · exact absurd (List.any_eq_true.mpr ⟨x, hx, by simp [hk.1, hk.2]⟩) hc
      · simpa using hx
    · exact ⟨r, by simp, ⟨rfl, rfl⟩⟩

theorem upsertCP_keeps_unique (t : List ComputedPriorityRow) (r r2 : ComputedPriorityRow)
    (hne : ¬ keyMatch r2 r) (hu : ∀ x ∈ t, keyMatch x r → x = r) :
    ∀ x ∈ upsertCP t r2, keyMatch x r → x = r := by
  intro x hx hk
  unfold upsertCP at hx
  by_cases hc : t.any (fun y =>
      y.response_id == r2.response_id && y.dimension_id == r2.dimension_id) = true
  · rw [if_pos hc] at hx
    rcases List.mem_map.mp hx with ⟨y, hy, rfl⟩
    by_cases hyk : y.response_id = r2.response_id ∧ y.dimension_id = r2.dimension_id
    · rw [if_pos hyk] at hk ⊢
      exact absurd hk hne
    · rw [if_neg hyk] at hk ⊢
      exact hu y hy hk
  · rw [if_neg hc] at hx
    rcases List.mem_append.mp hx with hx | hx
    · exact hu x hx hk
    · have hxr : x = r2 := by simpa using hx
      subst hxr
      exact absurd hk hne

theorem upsertCP_keeps_key (t : List ComputedPriorityRow) (r r2 : ComputedPriorityRow)
    (hp : ∃ x ∈ t, keyMatch x r) : ∃ x ∈ upsertCP t r2, keyMatch x r := by
  rcases hp with ⟨x, hx, hk⟩
  unfold upsertCP
  by_cases hc : t.any (fun y =>
      y.response_id == r2.response_id && y.dimension_id == r2.dimension_id) = true
  · rw [if_pos hc]
    by_cases hxk : x.response_id = r2.response_id ∧ x.dimension_id = r2.dimension_id
    · exact ⟨r2, List.mem_map.mpr ⟨x, hx, if_pos hxk⟩,
        ⟨hxk.1.symm.trans hk.1, hxk.2.symm.trans hk.2⟩⟩
    · exact ⟨x, List.mem_map.mpr ⟨x, hx, if_neg hxk⟩, hk⟩
  · rw [if_neg hc]
    exact ⟨x, List.mem_append_left _ hx, hk⟩

theorem upsertAll_keeps (batch t : List ComputedPriorityRow) (r : ComputedPriorityRow)
    (hub : ∀ x ∈ batch, ¬ keyMatch x r)
    (hu : ∀ x ∈ t, keyMatch x r → x = r) (hp : ∃ x ∈ t, keyMatch x r) :
    (∀ x ∈ upsertAll t batch, keyMatch x r → x = r) ∧ (∃ x ∈ upsertAll t batch, keyMatch x r) := by
  induction batch generalizing t with
  | nil => exact ⟨hu, hp⟩
  | cons b bs ih =>
      exact ih (upsertCP t b) (fun x hx => hub x (List.mem_cons_of_mem b hx))
        (upsertCP_keeps_unique t r b (hub b (List.mem_cons_self b bs)) hu)
        (upsertCP_keeps_key t r b hp)

theorem upsertAll_sets (batch t : List ComputedPriorityRow)
    (hpw : batch.Pairwise (fun a b => ¬ keyMatch a b)) :
    ∀ r ∈ batch,
      (∀ x ∈ upsertAll t batch, keyMatch x r → x = r) ∧ (∃ x ∈ upsertAll t batch, keyMatch x r) := by
  induction batch generalizing t with
  | nil =>
      intro r hr
      exact absurd hr (List.not_mem_nil r)
  | cons b bs ih =>
      intro r hr
      rcases List.mem_cons.mp hr with rfl | hr2
      · have h0 := upsertCP_sets_key t r
        have hub : ∀ x ∈ bs, ¬ keyMatch x r := by
          intro x hx hk
          exact (List.pairwise_cons.mp hpw).1 x hx (keyMatch_symm hk)
        exact upsertAll_keeps bs (upsertCP t r) r hub h0.1 h0.2
      · exact ih (upsertCP t b) (List.pairwise_cons.mp hpw).2 r hr2

theorem upsertAll_idem (batch t : List ComputedPriorityRow)
    (hpw : batch.Pairwise (fun a b => ¬ keyMatch a b))
    (h : ∀ r ∈ batch, (∀ x ∈ t, keyMatch x r → x = r) ∧ (∃ x ∈ t, keyMatch x r)) :
    upsertAll t batch = t := by
  induction batch generalizing t with
  | nil => rfl
  | cons b bs ih =>
      have hb := h b (List.mem_cons_self b bs)
      have h1 : upsertCP t b = t := upsertCP_self t b hb.1 hb.2
      show upsertAll (upsertCP t b) bs = t
      rw [h1]
      exact ih t (List.pairwise_cons.mp hpw).2 (fun r hr => h r (List.mem_cons_of_mem b hr))

/-- Re-running the whole batched upsert with rows of pairwise-distinct keys
is a no-op: the second round only overwrites rows with themselves. -/
theorem upsertAll_twice (batch t : List ComputedPriorityRow)
    (hpw : batch.Pairwise (fun a b => ¬ keyMatch a b)) :
    upsertAll (upsertAll t batch) batch = upsertAll t batch :=
  upsertAll_idem batch (upsertAll t batch) hpw (upsertAll_sets batch t hpw)

/-- Witness for C10: computing response 1 against `dbNoAnswers` returns
zeros and an empty dimension list without an error. -/
theorem claim10_empty_response_witness :
    (computeResults noFail dbNoAnswers 1 9).2 =
      Except.ok { overallScore := 0, overallGap := 0, dimensions := [] } := by
  have h := claim10_empty_response noFail dbNoAnswers 1 9
    (by intro tr htr
        simp only [dbNoAnswers, List.mem_singleton] at htr
        subst htr
        decide) rfl rfl
  exact h.1

/-! ## Stability of the pipeline under its own writes (C6) -/

theorem runDB1_reads (db : DB) (rid n : ℕ) :
    (runDB1 db rid n).topics = db.topics ∧
    (runDB1 db rid n).dimensions = db.dimensions ∧
    (runDB1 db rid n).topic_responses = db.topic_responses ∧
    (runDB1 db rid n).topic_recommendations = db.topic_recommendations := by
  unfold runDB1
  by_cases h : (runSorted db rid).length > 0
  · rw [if_pos h]
    exact ⟨rfl, rfl, rfl, rfl⟩
  · rw [if_neg h]
    exact ⟨rfl, rfl, rfl, rfl⟩

theorem runDB2_reads (db : DB) (rid n : ℕ) :
    (runDB2 db rid n).topics = db.topics ∧
    (runDB2 db rid n).dimensions = db.dimensions ∧
    (runDB2 db rid n).topic_responses = db.topic_responses ∧
    (runDB2 db rid n).topic_recommendations = db.topic_recommendations :=
  runDB1_reads db rid n

theorem runDB1_cp (db : DB) (rid n : ℕ) :
    (runDB1 db rid n).computed_priorities =
      if (runSorted db rid).length > 0 then
        upsertAll db.computed_priorities (runCPBatch db rid n)
      else db.computed_priorities := by
  unfold runDB1
  by_cases h : (runSorted db rid).length > 0
  · rw [if_pos h, if_pos h]
  · rw [if_neg h, if_neg h]

theorem runDB2_cp (db : DB) (rid n : ℕ) :
    (runDB2 db rid n).computed_priorities = (runDB1 db rid n).computed_priorities := rfl

theorem runDB1_ar (db : DB) (rid n : ℕ) :
    (runDB1 db rid n).assessment_responses = db.assessment_responses := by
  unfold runDB1
  by_cases h : (runSorted db rid).length > 0
  · rw [if_pos h]
  · rw [if_neg h]

theorem runDB2_ar (db : DB) (rid n : ℕ) :
    (runDB2 db rid n).assessment_responses =
      finalizeResponses db.assessment_responses rid
        (runOM db rid).overallScore (runOM db rid).overallGap n := by
  show finalizeResponses (runDB1 db rid n).assessment_responses rid
      (runOM db rid).overallScore (runOM db rid).overallGap n = _
  rw [runDB1_ar]

theorem runRows_stable (db : DB) (rid n : ℕ) :
    runRows (runDB2 db rid n) rid = runRows db rid := by
  unfold runRows
  rw [(runDB2_reads db rid n).2.2.1, (runDB2_reads db rid n).1, (runDB2_reads db rid n).2.1]

theorem runTopicIds_stable (db : DB) (rid n : ℕ) :
    runTopicIds (runDB2 db rid n) rid = runTopicIds db rid := by
  unfold runTopicIds
  rw [runRows_stable]

theorem runRecRows_stable (db : DB) (rid n : ℕ) :
    runRecRows (runDB2 db rid n) rid = runRecRows db rid := by
  unfold runRecRows
  rw [runTopicIds_stable, (runDB2_reads db rid n).2.2.2, (runDB2_reads db rid n).1]

theorem runSorted_stable (db : DB) (rid n : ℕ) :
    runSorted (runDB2 db rid n) rid = runSorted db rid := by
  unfold runSorted
  rw [runRows_stable]

theorem runOM_stable (db : DB) (rid n : ℕ) :
    runOM (runDB2 db rid n) rid = runOM db rid := by
  unfold runOM
  rw [runSorted_stable]

theorem runOutput_stable (db : DB) (rid n : ℕ) :
    runOutput (runDB2 db rid n) rid = runOutput db rid := by
  unfold runOutput
  rw [runSorted_stable, runOM_stable]

theorem runCPBatch_stable (db : DB) (rid n n2 : ℕ) :
    runCPBatch (runDB2 db rid n) rid n2 = runCPBatch db rid n2 := by
  unfold runCPBatch
  rw [runSorted_stable, runRows_stable, runRecRows_stable]

theorem mkCPRows_clearStamp (sorted : List CalcDim) (rows : List TRRow)
    (recRows : List RecRow) (rid n : ℕ) :
    (mkCPRows sorted rows recRows rid n).map clearStamp =
      mkCPRows sorted rows recRows rid 0 := by
  unfold mkCPRows
  rw [List.map_map]
  apply List.map_congr_left
  intro p _
  rfl

theorem runCPBatch_pairwise (db : DB) (rid n : ℕ) :
    (runCPBatch db rid n).Pairwise (fun a b => ¬ keyMatch a b) := by
  have hnd : ((runCPBatch db rid n).map ComputedPriorityRow.dimension_id).Nodup := by
    unfold runCPBatch
    rw [mkCPRows_map_dim]
    exact sortDims_id_nodup (runRows db rid)
  have h2 : List.Pairwise
      (fun a b : ComputedPriorityRow => a.dimension_id ≠ b.dimension_id)
      (runCPBatch db rid n) := List.pairwise_map.mp hnd
  exact h2.imp (fun h hk => h hk.2)

theorem pairwise_keys_clearStamp (batch : List ComputedPriorityRow)
    (h : batch.Pairwise (fun a b => ¬ keyMatch a b)) :
    (batch.map clearStamp).Pairwise (fun a b => ¬ keyMatch a b) := by
  rw [List.pairwise_map]
  exact h.imp (fun hab hk => hab hk)

theorem finalize_strip_stable (t : List AssessmentResponseRow) (rid : ℕ)
    (os og : ℚ) (n1 n2 : ℕ) :
    (finalizeResponses (finalizeResponses t rid os og n1) rid os og n2).map stripTimes =
      (finalizeResponses t rid os og n1).map stripTimes := by
  unfold finalizeResponses
  rw [List.map_map, List.map_map, List.map_map]
  apply List.map_congr_left
  intro r _
  by_cases hid : r.id = rid <;> simp [stripTimes, hid]

/-- **C6**: running the whole compute-and-persist flow a second time on the
state left by the first run with unchanged inputs succeeds and returns the
same value; the `computed_priorities` table is unchanged up to the
`computed_at` column (identical score/gap/priority/rank/recommendation
tuples), in particular its row count does not grow (the keyed upsert
overwrites instead of duplicating); and the response row is unchanged up to
its timestamps. -/
theorem claim6_idempotent_recompute (db : DB) (rid now1 now2 : ℕ) :
    (computeResults noFail db rid now1).2 = Except.ok (runOutput db rid) ∧
    (computeResults noFail ((computeResults noFail db rid now1).1) rid now2).2 =
      (computeResults noFail db rid now1).2 ∧
    ((computeResults noFail ((computeResults noFail db rid now1).1) rid now2).1.computed_priorities.map
        clearStamp =
      ((computeResults noFail db rid now1).1).computed_priorities.map clearStamp) ∧
    ((computeResults noFail ((computeResults noFail db rid now1).1) rid now2).1.computed_priorities.length =
      ((computeResults noFail db rid now1).1).computed_priorities.length) ∧
    ((computeResults noFail ((computeResults noFail db rid now1).1) rid now2).1.assessment_responses.map
        stripTimes =
      ((computeResults noFail db rid now1).1).assessment_responses.map stripTimes) := by
  have h1 := computeResults_noFail db rid now1
  have hfst : (computeResults noFail db rid now1).1 = runDB2 db rid now1 := by rw [h1]
  have hsnd : (computeResults noFail db rid now1).2 = Except.ok (runOutput db rid) := by rw [h1]
  have h2 := computeResults_noFail (runDB2 db rid now1) rid now2
  have hfst2 : (computeResults noFail (runDB2 db rid now1) rid now2).1 =
      runDB2 (runDB2 db rid now1) rid now2 := by rw [h2]
  have hsnd2 : (computeResults noFail (runDB2 db rid now1) rid now2).2 =
      Except.ok (runOutput (runDB2 db rid now1) rid) := by rw [h2]
  rw [hfst, hsnd, hfst2, hsnd2, runOutput_stable]
  have hb : (runCPBatch db rid now2).map clearStamp = (runCPBatch db rid now1).map clearStamp := by
    unfold runCPBatch
    rw [mkCPRows_clearStamp, mkCPRows_clearStamp]
  have hclear : (runDB2 (runDB2 db rid now1) rid now2).computed_priorities.map clearStamp =
      (runDB2 db rid now1).computed_priorities.map clearStamp := by
    have hcp1 : (runDB2 db rid now1).computed_priorities =
        if (runSorted db rid).length > 0 then
          upsertAll db.computed_priorities (runCPBatch db rid now1)
        else db.computed_priorities := by
      rw [runDB2_cp, runDB1_cp]
    have hcp2 : (runDB2 (runDB2 db rid now1) rid now2).computed_priorities =
        if (runSorted db rid).length > 0 then
          upsertAll (runDB2 db rid now1).computed_priorities (runCPBatch db rid now2)
        else (runDB2 db rid now1).computed_priorities := by
      rw [runDB2_cp, runDB1_cp, runSorted_stable, runCPBatch_stable]
    by_cases hs : (runSorted db rid).length > 0
    · rw [hcp2, if_pos hs]
      conv_lhs => rw [hcp1, if_pos hs]
      have hpw1 : ((runCPBatch db rid now1).map clearStamp).Pairwise
          (fun a b => ¬ keyMatch a b) :=
        pairwise_keys_clearStamp _ (runCPBatch_pairwise db rid now1)
      calc (upsertAll (upsertAll db.computed_priorities (runCPBatch db rid now1))
              (runCPBatch db rid now2)).map clearStamp
          = upsertAll ((upsertAll db.computed_priorities (runCPBatch db rid now1)).map
              clearStamp) ((runCPBatch db rid now2).map clearStamp) :=
            upsertAll_map_clearStamp _ _
        _ = upsertAll (upsertAll (db.computed_priorities.map clearStamp)
              ((runCPBatch db rid now1).map clearStamp))
              ((runCPBatch db rid now1).map clearStamp) := by
            rw [upsertAll_map_clearStamp, hb]
        _ = upsertAll (db.computed_priorities.map clearStamp)
              ((runCPBatch db rid now1).map clearStamp) :=
            upsertAll_twice _ _ hpw1
        _ = (upsertAll db.computed_priorities (runCPBatch db rid now1)).map clearStamp :=
            (upsertAll_map_clearStamp _ _).symm
        _ = (runDB2 db rid now1).computed_priorities.map clearStamp := by
            rw [hcp1, if_pos hs]
    · rw [hcp2, if_neg hs]
  have har : (runDB2 (runDB2 db rid now1) rid now2).assessment_responses.map stripTimes =
      (runDB2 db rid now1).assessment_responses.map stripTimes := by
    rw [runDB2_ar (runDB2 db rid now1) rid now2, runOM_stable,
      runDB2_ar db rid now1]
    exact finalize_strip_stable db.assessment_responses rid
      (runOM db rid).overallScore (runOM db rid).overallGap now1 now2
  refine ⟨rfl, rfl, hclear, ?_, har⟩
  have := congrArg List.length hclear
  simpa using this

end Scoring
